import Mathlib

/-!
Verification of the rate-limited request-dispatch core of the
`lay-v2` backend (`src/backend/main.py`).

The development shallowly embeds:
* `RateLimiter.acquire` / `RateLimiter.wait_and_acquire` (sliding-window
  admission controller keyed by strings, timestamps as rationals);
* the JSON-RPC dispatch and response-classification logic of
  `BetfairClient._api_request`, `_account_request`, `login`,
  `place_orders` and `list_market_book`.

Python floats (timestamps, stakes, odds) are embedded as rationals; the
`httpx` transport is an oracle argument; uncaught Python exceptions
(which FastAPI turns into HTTP 500) are a dedicated outcome constructor.
-/

namespace LayV2

/-- Timestamps and durations, in seconds (Python floats embedded as rationals). -/
abbrev Time := ℚ

/-- The pruning step inside `RateLimiter.acquire`
(`src/backend/main.py` lines 113-116): keep exactly the timestamps `ts`
with `now - ts < window`. -/
def pruneWindow (w now : Time) (st : List Time) : List Time :=
  st.filter (fun ts => decide (now - ts < w))

/-- Model of `RateLimiter.acquire` acting on a single key's timestamp list
(`src/backend/main.py` lines 104-122): prune, then deny if the remaining
count has reached `maxR`, else append `now` and grant.  The returned pair
is (granted?, new timestamp list); note the pruned list is stored back
even on denial, exactly as the source reassigns `self.requests[key]`. -/
def acquire (maxR : ℕ) (w now : Time) (st : List Time) : Bool × List Time :=
  let fresh := pruneWindow w now st
  if maxR ≤ fresh.length then (false, fresh) else (true, fresh ++ [now])

/-- The `self.requests` mapping of `RateLimiter`: per-key timestamp lists.
A key absent from the Python dict behaves as the empty list (the source
lazily initialises it to `[]`), so a total function is a faithful model. -/
abbrev ReqMap := String → List Time

/-- Model of `RateLimiter.acquire` on the full per-key state: the decision touches
only the entry of `key`. -/
def acquireKey (maxR : ℕ) (w : Time) (key : String) (now : Time) (m : ReqMap) :
    Bool × ReqMap :=
  let r := acquire maxR w now (m key)
  (r.1, fun k => if k = key then r.2 else m k)

/-- Results of a sequence of `acquire` calls on one key at the given times
(state threaded through). -/
def admitSeq (maxR : ℕ) (w : Time) (st : List Time) : List Time → List Bool
  | [] => []
  | t :: ts => (acquire maxR w t st).1 :: admitSeq maxR w (acquire maxR w t st).2 ts

/-- The state left behind by a sequence of `acquire` calls on one key. -/
def runSeq (maxR : ℕ) (w : Time) (st : List Time) : List Time → List Time
  | [] => st
  | t :: ts => runSeq maxR w (acquire maxR w t st).2 ts

/-- Whether `x` lies in the half-open window of length `w` ending at `a`. -/
def inWindow (w a x : Time) : Bool := decide (a - x < w) && decide (x ≤ a)

theorem acquire_fst (maxR : ℕ) (w now : Time) (st : List Time) :
    (acquire maxR w now st).1 = true ↔ (pruneWindow w now st).length < maxR := by
  unfold acquire
  by_cases h : maxR ≤ (pruneWindow w now st).length
  · simp [h, Nat.not_lt.mpr h]
  · simp [h, Nat.lt_of_not_le h]

theorem acquire_snd (maxR : ℕ) (w now : Time) (st : List Time) :
    (acquire maxR w now st).2 =
      (if (pruneWindow w now st).length < maxR
       then pruneWindow w now st ++ [now] else pruneWindow w now st) := by
  unfold acquire
  by_cases h : maxR ≤ (pruneWindow w now st).length
  · simp [h, Nat.not_lt.mpr h]
  · simp [h, Nat.lt_of_not_le h]

theorem mem_pruneWindow {w now x : Time} {st : List Time} :
    x ∈ pruneWindow w now st ↔ x ∈ st ∧ now - x < w := by
  simp [pruneWindow, List.mem_filter]

/-- Pruning at a later instant absorbs pruning at an earlier one. -/
theorem pruneWindow_pruneWindow {w t t' : Time} (h : t ≤ t') (st : List Time) :
    pruneWindow w t' (pruneWindow w t st) = pruneWindow w t' st := by
  unfold pruneWindow
  rw [List.filter_filter]
  refine List.filter_congr ?_
  intro x _
  by_cases hx : t' - x < w
  · have hx' : t - x < w := lt_of_le_of_lt (by linarith) hx
    simp [hx, hx']
  · simp [hx]

/-- C9.  With `maxRequests = 0` every `admit` call, on every key and every
state (in particular a key with no prior admissions), returns denied; the
function is total, so the call completes normally. -/
theorem zero_max_requests_denies (w : Time) (key : String) (now : Time) (m : ReqMap) :
    (acquireKey 0 w key now m).1 = false := by
  simp [acquireKey, acquire]

/-- C5.  If at least a full window has elapsed since every recorded
admission for the key, the next `acquire` is granted (for positive
`maxRequests`), however saturated the window previously was; moreover at
every admission decision (any state, grant or deny) each retained
timestamp `x` satisfies `now - x < window`. -/
theorem prune_reopens_window (maxR : ℕ) (w now : Time) (st : List Time)
    (hmax : 0 < maxR) (hw : 0 < w) (hgap : ∀ x ∈ st, w ≤ now - x) :
    (acquire maxR w now st).1 = true ∧
    (∀ x ∈ (acquire maxR w now st).2, now - x < w) ∧
    (∀ st' : List Time, ∀ x ∈ (acquire maxR w now st').2, now - x < w) := by
  have hnil : pruneWindow w now st = [] := by
    refine List.filter_eq_nil_iff.mpr ?_
    intro x hx
    simp only [decide_eq_true_eq, not_lt]
    exact hgap x hx
  have hgen : ∀ st' : List Time, ∀ x ∈ (acquire maxR w now st').2, now - x < w := by
    intro st' x hx
    rw [acquire_snd] at hx
    by_cases h : (pruneWindow w now st').length < maxR
    · rw [if_pos h] at hx
      rcases List.mem_append.mp hx with h1 | h1
      · exact (mem_pruneWindow.mp h1).2
      · have : x = now := by simpa using h1
        simpa [this] using hw
    · rw [if_neg h] at hx
      exact (mem_pruneWindow.mp hx).2
  refine ⟨?_, hgen st, hgen⟩
  rw [acquire_fst, hnil]
  simpa using hmax

/-- Witness for C5 at a concrete saturated state. -/
theorem prune_reopens_window_witness : (acquire 1 1 5 [0]).1 = true := by
  refine (prune_reopens_window 1 1 5 [0] (by norm_num) (by norm_num) ?_).1
  intro x hx
  have : x = 0 := by simpa using hx
  rw [this]; norm_num

/-- C8.  Frame property of the per-key state: admitting under key `A`
leaves key `B`'s window untouched, and therefore never changes any later
admission decision taken under key `B`. -/
theorem key_independence (maxR : ℕ) (w : Time) (A B : String) (now now' : Time)
    (m : ReqMap) (hAB : A ≠ B) :
    (acquireKey maxR w A now m).2 B = m B ∧
    (acquireKey maxR w B now' ((acquireKey maxR w A now m).2)).1 =
      (acquireKey maxR w B now' m).1 := by
  have hB : (acquireKey maxR w A now m).2 B = m B := by
    simp [acquireKey, if_neg (Ne.symm hAB)]
  refine ⟨hB, ?_⟩
  show (acquire maxR w now' ((acquireKey maxR w A now m).2 B)).1 =
    (acquire maxR w now' (m B)).1
  rw [hB]

/-- Witness for C8 on concrete distinct keys. -/
theorem key_independence_witness :
    (acquireKey 5 1 "1.23" 0 (fun _ => [])).2 "1.24" = [] := by
  exact (key_independence 5 1 "1.23" "1.24" 0 0 (fun _ => []) (by decide)).1

theorem admitSeq_append (maxR : ℕ) (w : Time) :
    ∀ (l₁ l₂ st : List Time),
      admitSeq maxR w st (l₁ ++ l₂) =
        admitSeq maxR w st l₁ ++ admitSeq maxR w (runSeq maxR w st l₁) l₂ := by
  intro l₁
  induction l₁ with
  | nil => intro l₂ st; simp [admitSeq, runSeq]
  | cons t ts ih => intro l₂ st; simp [admitSeq, runSeq, ih]

/-- All-granted invariant: if the system state is the window of `past`
pruned at some instant `tc` separating `past` from `future`, and every
window-length interval ending at a future call time holds at most `maxR`
of the calls, then every future call is granted. -/
theorem admitSeq_all_granted_aux (maxR : ℕ) (w : Time) (hw : 0 < w) :
    ∀ (future past : List Time) (tc : Time),
      (∀ x ∈ past, x ≤ tc) →
      (∀ t ∈ future, tc ≤ t) →
      future.Sorted (· ≤ ·) →
      (∀ t ∈ future, (past ++ future).countP (inWindow w t) ≤ maxR) →
      admitSeq maxR w (pruneWindow w tc past) future =
        List.replicate future.length true := by
  intro future
  induction future with
  | nil => intro past tc _ _ _ _; simp [admitSeq]
  | cons t fs ih =>
    intro past tc h1 h2 hsort hcount
    have htc : tc ≤ t := h2 t (List.mem_cons_self t fs)
    -- the pruned count at time t is below maxR
    have hfresh : pruneWindow w t (pruneWindow w tc past) = pruneWindow w t past :=
      pruneWindow_pruneWindow htc past
    have hcong : pruneWindow w t past = past.filter (inWindow w t) := by
      refine List.filter_congr ?_
      intro x hx
      have hxt : x ≤ t := le_trans (h1 x hx) htc
      simp [inWindow, hxt]
    have hself : inWindow w t t = true := by
      simp [inWindow]; linarith
    have hc := hcount t (List.mem_cons_self t fs)
    rw [List.countP_append, List.countP_cons, hself] at hc
    simp only [if_true] at hc
    have hlen : (pruneWindow w t past).length < maxR := by
      rw [hcong, ← List.countP_eq_length_filter]
      omega
    have hgrant : (acquire maxR w t (pruneWindow w tc past)).1 = true := by
      rw [acquire_fst, hfresh]; exact hlen
    have hstate : (acquire maxR w t (pruneWindow w tc past)).2 =
        pruneWindow w t (past ++ [t]) := by
      rw [acquire_snd, hfresh, if_pos hlen]
      unfold pruneWindow
      rw [List.filter_append]
      have : [t].filter (fun ts => decide (t - ts < w)) = [t] := by
        simp; linarith
      rw [this]
    rw [List.sorted_cons] at hsort
    have hrec := ih (past ++ [t]) t
      (by
        intro x hx
        rcases List.mem_append.mp hx with h | h
        · exact le_trans (h1 x h) htc
        · have : x = t := by simpa using h
          simp [this])
      (fun t' ht' => hsort.1 t' ht')
      hsort.2
      (by
        intro t' ht'
        have := hcount t' (List.mem_cons_of_mem t ht')
        calc ((past ++ [t]) ++ fs).countP (inWindow w t')
            = (past ++ t :: fs).countP (inWindow w t') := by
              rw [List.append_assoc]; rfl
          _ ≤ maxR := this)
    show (acquire maxR w t (pruneWindow w tc past)).1 ::
      admitSeq maxR w (acquire maxR w t (pruneWindow w tc past)).2 fs =
      List.replicate (t :: fs).length true
    rw [hgrant, hstate, hrec]
    simp [List.replicate_succ]

/-- In a cluster of calls all lying inside one window-length interval,
starting from a state also inside that interval, every call is granted as
long as the total count stays within `maxR`, and nothing is ever pruned. -/
theorem admitSeq_cluster (maxR : ℕ) (w a : Time) :
    ∀ (ts st : List Time),
      (∀ x ∈ st, a - w < x ∧ x ≤ a) →
      (∀ t ∈ ts, a - w < t ∧ t ≤ a) →
      st.length + ts.length ≤ maxR →
      admitSeq maxR w st ts = List.replicate ts.length true ∧
      runSeq maxR w st ts = st ++ ts := by
  intro ts
  induction ts with
  | nil => intro st _ _ _; simp [admitSeq, runSeq]
  | cons t ts ih =>
    intro st hst hts hlen
    have hta := hts t (List.mem_cons_self t ts)
    have hfresh : pruneWindow w t st = st := by
      refine List.filter_eq_self.mpr ?_
      intro x hx
      have hxa := hst x hx
      simp only [decide_eq_true_eq]
      linarith [hxa.1, hxa.2, hta.1, hta.2]
    have hlt : st.length < maxR := by simp at hlen; omega
    have hgrant : (acquire maxR w t st).1 = true := by
      rw [acquire_fst, hfresh]; exact hlt
    have hstate : (acquire maxR w t st).2 = st ++ [t] := by
      rw [acquire_snd, hfresh, if_pos hlt]
    have hrec := ih (st ++ [t])
      (by
        intro x hx
        rcases List.mem_append.mp hx with h | h
        · exact hst x h
        · have : x = t := by simpa using h
          simpa [this] using hta)
      (fun t' ht' => hts t' (List.mem_cons_of_mem t ht'))
      (by simp at hlen ⊢; omega)
    constructor
    · show (acquire maxR w t st).1 ::
        admitSeq maxR w (acquire maxR w t st).2 ts = List.replicate (t :: ts).length true
      rw [hgrant, hstate, hrec.1]
      simp [List.replicate_succ]
    · show runSeq maxR w (acquire maxR w t st).2 ts = st ++ t :: ts
      rw [hstate, hrec.2, List.append_assoc]
      rfl

/-- C1.  Sliding-window admission.  (i) `acquire` first prunes the key's
window down to exactly the timestamps `x` with `now - x < window`, then
grants — appending the current time — precisely when the remaining count
is strictly below `maxRequests`, and denies otherwise.  (ii) Consequently,
for a time-ordered sequence of calls starting from an empty window, if
every window-length interval contains at most `maxRequests` of the call
times, every call is granted; and (iii) when `maxRequests + 1` calls all
fall inside one window-length interval, the last of them is denied. -/
theorem sliding_window_admission (maxR : ℕ) (w : Time) (hw : 0 < w) :
    (∀ (now : Time) (st : List Time),
        ((acquire maxR w now st).1 = true ↔ (pruneWindow w now st).length < maxR) ∧
        (acquire maxR w now st).2 =
          (if (pruneWindow w now st).length < maxR
           then pruneWindow w now st ++ [now] else pruneWindow w now st) ∧
        (∀ x, x ∈ pruneWindow w now st ↔ x ∈ st ∧ now - x < w)) ∧
    (∀ ts : List Time, ts.Sorted (· ≤ ·) →
        (∀ a : Time, ts.countP (inWindow w a) ≤ maxR) →
        admitSeq maxR w [] ts = List.replicate ts.length true) ∧
    (∀ (ts : List Time) (a : Time), ts.length = maxR + 1 →
        (∀ x ∈ ts, a - w < x ∧ x ≤ a) →
        (admitSeq maxR w [] ts).getLast? = some false) := by
  refine ⟨fun now st => ⟨acquire_fst maxR w now st, acquire_snd maxR w now st,
    fun x => mem_pruneWindow⟩, ?_, ?_⟩
  · -- (ii) all granted under the interval-count hypothesis
    intro ts hsort hcount
    cases ts with
    | nil => simp [admitSeq]
    | cons t fs =>
      have := admitSeq_all_granted_aux maxR w hw (t :: fs) [] t
        (by intro x hx; simp at hx)
        (by
          intro t' ht'
          rcases List.mem_cons.mp ht' with h | h
          · simp [h]
          · exact (List.sorted_cons.mp hsort).1 t' h)
        hsort
        (by intro t' _; simpa using hcount t')
      simpa [pruneWindow] using this
  · -- (iii) the (maxR+1)-th call inside one interval is denied
    intro ts a hlen hin
    have hne : ts ≠ [] := by
      intro h; rw [h] at hlen; simp at hlen
    have hsplit := List.dropLast_append_getLast hne
    set tl := ts.getLast hne with htl
    set init := ts.dropLast with hinit
    have hinitlen : init.length = maxR := by
      rw [hinit, List.length_dropLast, hlen]
      omega
    have hsub : ∀ x ∈ init, x ∈ ts := fun x hx =>
      (List.dropLast_sublist ts).subset hx
    have hcluster := admitSeq_cluster maxR w a init []
      (by intro x hx; simp at hx)
      (fun x hx => hin x (hsub x hx))
      (by simp [hinitlen])
    have htlmem : tl ∈ ts := List.getLast_mem hne
    have htlin := hin tl htlmem
    have hfresh : pruneWindow w tl init = init := by
      refine List.filter_eq_self.mpr ?_
      intro x hx
      have hxa := hin x (hsub x hx)
      simp only [decide_eq_true_eq]
      linarith [hxa.1, hxa.2, htlin.1, htlin.2]
    have hdeny : (acquire maxR w tl init).1 = false := by
      rw [← Bool.not_eq_true, acquire_fst, hfresh, hinitlen]
      omega
    calc (admitSeq maxR w [] ts).getLast?
        = (admitSeq maxR w [] (init ++ [tl])).getLast? := by rw [hsplit]
      _ = (admitSeq maxR w [] init ++
            admitSeq maxR w (runSeq maxR w [] init) [tl]).getLast? := by
          rw [admitSeq_append]
      _ = some false := by
          rw [hcluster.2]
          show (admitSeq maxR w [] init ++
            [(acquire maxR w tl ([] ++ init)).1]).getLast? = some false
          rw [List.nil_append, hdeny, List.getLast?_concat]

/-- Witness for C1: with `maxRequests = 2`, `window = 1`, two calls one
window apart are both granted, and three calls at the same instant end in
a denial. -/
theorem sliding_window_admission_witness :
    admitSeq 2 1 [] [0, 3] = [true, true] ∧
    (admitSeq 2 1 [] [0, 0, 0]).getLast? = some false := by
  constructor
  · have h := (sliding_window_admission 2 1 (by norm_num)).2.1 [0, 3]
      (by norm_num [List.sorted_cons])
      (fun a => le_trans (List.countP_le_length _) (by simp))
    simpa using h
  · refine (sliding_window_admission 2 1 (by norm_num)).2.2 [0, 0, 0] 0 (by simp) ?_
    intro x hx
    have : x = 0 := by simpa using hx
    rw [this]; norm_num

/-- Model of `RateLimiter.wait_and_acquire` (`src/backend/main.py` lines 124-131).
The `i`-th loop iteration reads the clock (`clock i`), and — if the
deadline has not yet passed — polls `acquire`, whose outcome (determined
by the shared limiter state and other tasks) is the oracle `grant i`;
on denial it sleeps 100 ms and retries.  `fuel` bounds the number of
iterations modelled; `none` means the bound was reached first (the real
loop always terminates because the clock advances past the deadline). -/
def waitLoop (timeout start : Time) (clock : ℕ → Time) (grant : ℕ → Bool) :
    ℕ → ℕ → Option Bool
  | _, 0 => none
  | i, fuel + 1 =>
    if timeout ≤ clock i - start then some false
    else if grant i then some true
    else waitLoop timeout start clock grant (i + 1) fuel

theorem waitLoop_eq_false (T s : Time) (c : ℕ → Time) (g : ℕ → Bool) :
    ∀ (fuel j : ℕ),
      (waitLoop T s c g j fuel = some false ↔
        ∃ k, k < fuel ∧ T ≤ c (j + k) - s ∧
          ∀ i < k, c (j + i) - s < T ∧ g (j + i) = false) := by
  intro fuel
  induction fuel with
  | zero => intro j; simp [waitLoop]
  | succ n ih =>
    intro j
    unfold waitLoop
    by_cases hT : T ≤ c j - s
    · rw [if_pos hT]
      simp only [Option.some.injEq]
      constructor
      · intro _
        exact ⟨0, Nat.succ_pos n, by simpa using hT, fun i hi => absurd hi (Nat.not_lt_zero i)⟩
      · intro _; trivial
    · rw [if_neg hT]
      by_cases hg : g j = true
      · rw [if_pos hg]
        constructor
        · intro h; exact absurd h (by simp)
        · rintro ⟨k, -, hTk, hall⟩
          cases k with
          | zero => exact absurd (by simpa using hTk) hT
          | succ m =>
            exact absurd hg (by simpa using (hall 0 (Nat.succ_pos m)).2)
      · rw [if_neg hg]
        rw [ih (j + 1)]
        constructor
        · rintro ⟨k, hk, hTk, hall⟩
          refine ⟨k + 1, Nat.succ_lt_succ hk, ?_, ?_⟩
          · have : j + (k + 1) = j + 1 + k := by omega
            rw [this]; exact hTk
          · intro i hi
            cases i with
            | zero =>
              exact ⟨not_le.mp hT, by simpa using Bool.of_not_eq_true hg⟩
            | succ m =>
              have hm : m < k := by omega
              have : j + (m + 1) = j + 1 + m := by omega
              rw [this]
              exact hall m hm
        · rintro ⟨k, hk, hTk, hall⟩
          cases k with
          | zero => exact absurd (by simpa using hTk) hT
          | succ m =>
            refine ⟨m, by omega, ?_, ?_⟩
            · have : j + 1 + m = j + (m + 1) := by omega
              rw [this]; exact hTk
            · intro i hi
              have : j + 1 + i = j + (i + 1) := by omega
              rw [this]
              exact hall (i + 1) (by omega)

theorem waitLoop_eq_true (T s : Time) (c : ℕ → Time) (g : ℕ → Bool) :
    ∀ (fuel j : ℕ),
      (waitLoop T s c g j fuel = some true ↔
        ∃ k, k < fuel ∧ c (j + k) - s < T ∧ g (j + k) = true ∧
          ∀ i < k, c (j + i) - s < T ∧ g (j + i) = false) := by
  intro fuel
  induction fuel with
  | zero => intro j; simp [waitLoop]
  | succ n ih =>
    intro j
    unfold waitLoop
    by_cases hT : T ≤ c j - s
    · rw [if_pos hT]
      constructor
      · intro h; exact absurd h (by simp)
      · rintro ⟨k, -, hck, -, hall⟩
        cases k with
        | zero => exact absurd hT (by simpa using not_le.mpr hck)
        | succ m => exact absurd hT (by simpa using not_le.mpr (hall 0 (Nat.succ_pos m)).1)
    · rw [if_neg hT]
      by_cases hg : g j = true
      · rw [if_pos hg]
        simp only [Option.some.injEq]
        constructor
        · intro _
          exact ⟨0, Nat.succ_pos n, by simpa using not_le.mp hT, by simpa using hg,
            fun i hi => absurd hi (Nat.not_lt_zero i)⟩
        · intro _; trivial
      · rw [if_neg hg]
        rw [ih (j + 1)]
        constructor
        · rintro ⟨k, hk, hck, hgk, hall⟩
          refine ⟨k + 1, Nat.succ_lt_succ hk, ?_, ?_, ?_⟩
          · have : j + (k + 1) = j + 1 + k := by omega
            rw [this]; exact hck
          · have : j + (k + 1) = j + 1 + k := by omega
            rw [this]; exact hgk
          · intro i hi
            cases i with
            | zero =>
              exact ⟨not_le.mp hT, by simpa using Bool.of_not_eq_true hg⟩
            | succ m =>
              have : j + (m + 1) = j + 1 + m := by omega
              rw [this]
              exact hall m (by omega)
        · rintro ⟨k, hk, hck, hgk, hall⟩
          cases k with
          | zero => exact absurd (by simpa using hgk) hg
          | succ m =>
            refine ⟨m, by omega, ?_, ?_, ?_⟩
            · have : j + 1 + m = j + (m + 1) := by omega
              rw [this]; exact hck
            · have : j + 1 + m = j + (m + 1) := by omega
              rw [this]; exact hgk
            · intro i hi
              have : j + 1 + i = j + (i + 1) := by omega
              rw [this]
              exact hall (i + 1) (by omega)

/-- C6.  `wait_and_acquire` (modelled with an iteration bound `fuel`,
within which the real loop terminates) returns `false` exactly when some
clock reading shows the deadline elapsed while every earlier poll's
`acquire` was denied; and it returns `true` exactly when some in-deadline
poll is granted, all earlier polls having been in-deadline denials — so a
granted `acquire` during the wait is returned immediately and is never
followed by a `false` result. -/
theorem wait_and_acquire_characterization (T s : Time) (c : ℕ → Time)
    (g : ℕ → Bool) (fuel : ℕ) :
    (waitLoop T s c g 0 fuel = some false ↔
      ∃ k, k < fuel ∧ T ≤ c k - s ∧ ∀ i < k, c i - s < T ∧ g i = false) ∧
    (waitLoop T s c g 0 fuel = some true ↔
      ∃ k, k < fuel ∧ c k - s < T ∧ g k = true ∧
        ∀ i < k, c i - s < T ∧ g i = false) := by
  constructor
  · simpa using waitLoop_eq_false T s c g fuel 0
  · simpa using waitLoop_eq_true T s c g fuel 0

/-- Parsed JSON values (what Python's `response.json()` yields). -/
inductive Json where
  | null
  | bool (b : Bool)
  | num (q : ℚ)
  | str (s : String)
  | arr (xs : List Json)
  | obj (fields : List (String × Json))

/-- Python `dict.get(k)` on a parsed JSON object (field list). -/
def getKey (fields : List (String × Json)) (k : String) : Option Json :=
  (fields.find? (fun p => p.1 == k)).map (fun p => p.2)

/-- Python `v == s` for a looked-up JSON value against a string literal. -/
def isStrEq (s : String) : Option Json → Bool
  | some (Json.str t) => t == s
  | _ => false

/-- An upstream HTTP response: the declared content type header and the
result of attempting `response.json()` on the body, a top-level JSON
object on success (`Except.error` is the raw `JSONDecodeError` text). -/
structure HttpResponse where
  contentType : String
  body : Except String (List (String × Json))

/-- Result of one transport attempt: either a response or an
`httpx.RequestError` (connection refused, timeout, DNS failure). -/
inductive HttpResult where
  | response (r : HttpResponse)
  | requestError (e : String)

/-- The JSON-RPC envelope built per call (`payload` in the source). -/
structure RpcEnvelope where
  jsonrpc : String
  method : String
  params : Json
  requestId : ℕ

def mkEnvelope (ns method : String) (params : Json) : RpcEnvelope :=
  ⟨"2.0", ns ++ method, params, 1⟩

/-- Classified outcome of one dispatched call, by the HTTP error the
source raises (or the value it returns):
`success` = returned payload; `upstreamError` = HTTPException 400 carrying
the upstream error object; `sessionExpired` = HTTPException 401
"Session expired"; `transportError` = HTTPException 503 on
`httpx.RequestError`; `rateLimited` = HTTPException 429;
`policyRejected` = the HTTPException 400 raised by the bet-sizing gate;
`internalError` = an exception the source does not catch (FastAPI's
generic handler turns it into HTTP 500). -/
inductive Outcome where
  | success (payload : Json)
  | upstreamError (err : Json)
  | sessionExpired
  | transportError (detail : String)
  | rateLimited
  | policyRejected
  | internalError (detail : String)

def Outcome.isSessionExpired : Outcome → Bool
  | Outcome.sessionExpired => true
  | _ => false

def Outcome.isTransportError : Outcome → Bool
  | Outcome.transportError _ => true
  | _ => false

def Outcome.isRateLimited : Outcome → Bool
  | Outcome.rateLimited => true
  | _ => false

/-- Error-object handling of `BetfairClient._api_request`
(`src/backend/main.py` lines 394-409): read `error.get("data", {})`,
raise 401 when its `exceptionname` equals `INVALID_SESSION_INFORMATION`,
else raise 400 with the error's own message.  A non-object `error` or a
non-object present `data` makes Python's `.get` raise `AttributeError`,
which nothing catches. -/
def classifyApiError (err : Json) : Outcome :=
  match err with
  | Json.obj efields =>
    match (getKey efields "data").getD (Json.obj []) with
    | Json.obj dfields =>
      if isStrEq "INVALID_SESSION_INFORMATION" (getKey dfields "exceptionname")
      then Outcome.sessionExpired
      else Outcome.upstreamError (Json.obj efields)
    | _ => Outcome.internalError "AttributeError: error data has no attribute get"
  | _ => Outcome.internalError "AttributeError: error has no attribute get"

/-- Body handling of `_api_request` (lines 392-411): `response.json()`
(an unparseable body raises an uncaught `JSONDecodeError`), then the
`"error" in result` check, else `result.get("result", {})`. -/
def classifyApiBody (body : Except String (List (String × Json))) : Outcome :=
  match body with
  | Except.error e => Outcome.internalError e
  | Except.ok fields =>
    match getKey fields "error" with
    | some err => classifyApiError err
    | none => Outcome.success ((getKey fields "result").getD (Json.obj []))

/-- Response classification of `_api_request` (lines 385-418).  Note the
declared content type of a received response is never inspected: the
source goes straight to `response.json()`. -/
def apiClassify (res : HttpResult) : Outcome :=
  match res with
  | HttpResult.requestError e => Outcome.transportError e
  | HttpResult.response r => classifyApiBody r.body

/-- Body handling of `BetfairClient._account_request` (lines 441-451):
any error object raises 400; there is no session-expiry check and no
content-type check. -/
def classifyAccountBody (body : Except String (List (String × Json))) : Outcome :=
  match body with
  | Except.error e => Outcome.internalError e
  | Except.ok fields =>
    match getKey fields "error" with
    | some err =>
      match err with
      | Json.obj efields => Outcome.upstreamError (Json.obj efields)
      | _ => Outcome.internalError "AttributeError: error has no attribute get"
    | none => Outcome.success ((getKey fields "result").getD (Json.obj []))

/-- Response classification of `_account_request` (lines 434-458). -/
def accountClassify (res : HttpResult) : Outcome :=
  match res with
  | HttpResult.requestError e => Outcome.transportError e
  | HttpResult.response r => classifyAccountBody r.body

/-- Model of `BetfairClient._api_request` (lines 357-418): optional admission
under `rateLimitKey` (`adm` is the outcome of
`wait_and_acquire`), raising 429 before the payload is built; otherwise
build the `SportsAPING/v1.0/` envelope, run the transport oracle `net`,
and classify.  The source gates admission with `if rate_limit_key:`
(line 369) — Python truthiness — so BOTH `None` and the empty string
skip the admission check entirely and dispatch straight away. -/
def apiRequest (method : String) (params : Json) (rateLimitKey : Option String)
    (adm : String → Bool) (net : RpcEnvelope → HttpResult) : Outcome :=
  match rateLimitKey with
  | some k =>
    if k = "" then apiClassify (net (mkEnvelope "SportsAPING/v1.0/" method params))
    else if adm k
    then apiClassify (net (mkEnvelope "SportsAPING/v1.0/" method params))
    else Outcome.rateLimited
  | none => apiClassify (net (mkEnvelope "SportsAPING/v1.0/" method params))

/-- Model of `BetfairClient._account_request` (lines 420-458): no rate limiting,
`AccountAPING/v1.0/` namespace. -/
def accountRequest (method : String) (params : Json)
    (net : RpcEnvelope → HttpResult) : Outcome :=
  accountClassify (net (mkEnvelope "AccountAPING/v1.0/" method params))

/-- Whether the substring `needle` occurs in `hay`, both as char lists:
Python's `needle in hay` on strings. -/
def charsStartWith : List Char → List Char → Bool
  | [], _ => true
  | _ :: _, [] => false
  | a :: as, b :: bs => a == b && charsStartWith as bs

def charsContain (needle : List Char) : List Char → Bool
  | [] => charsStartWith needle []
  | h :: t => charsStartWith needle (h :: t) || charsContain needle t

/-- The content-type test of `BetfairClient.login` (lines 251-252):
`"application/json" in content_type`. -/
def declaresJson (contentType : String) : Bool :=
  charsContain "application/json".data contentType.data

/-- Login outcomes: a granted session (with `LIMITED_ACCESS` flag), a
401 auth failure carrying the upstream error code, the 502 raised on a
non-JSON content type, the 503 raised on `httpx.RequestError`, and an
uncaught exception. -/
inductive LoginOutcome where
  | grantedSession (token : Option Json) (limited : Bool)
  | authFailed (code : Json)
  | badGateway (detail : String)
  | serviceUnavailable (detail : String)
  | internalError (detail : String)

/-- Model of `BetfairClient.login` response handling (lines 242-300): the content
type is inspected BEFORE any parse, and a non-JSON content type raises
502 without touching the body; then the `status` field selects the
outcome. -/
def loginClassify (res : HttpResult) : LoginOutcome :=
  match res with
  | HttpResult.requestError e =>
    LoginOutcome.serviceUnavailable ("Failed to connect to Betfair: " ++ e)
  | HttpResult.response r =>
    if declaresJson r.contentType then
      match r.body with
      | Except.error e => LoginOutcome.internalError e
      | Except.ok fields =>
        if isStrEq "SUCCESS" (getKey fields "status") then
          LoginOutcome.grantedSession (getKey fields "token") false
        else if isStrEq "LIMITED_ACCESS" (getKey fields "status") then
          LoginOutcome.grantedSession (getKey fields "token") true
        else
          LoginOutcome.authFailed ((getKey fields "error").getD (Json.str "UNKNOWN_ERROR"))
    else
      LoginOutcome.badGateway
        "Betfair returned non-JSON response. May be geo-blocked or service unavailable."

/-- The bet-sizing gate of `BetfairClient.place_orders` (lines 540-541):
`stake < 1.0 and stake * odds < 10.0`. -/
def betPolicyViolated (stake odds : ℚ) : Bool :=
  decide (stake < 1) && decide (stake * odds < 10)

/-- Model of `BetfairClient.place_orders` (lines 531-568): the sizing gate raises
400 before anything else; an admitted order is dispatched with
`rate_limit_key = market_id` (the instruction payload is the opaque
`params`). -/
def placeOrders (stake odds : ℚ) (marketId : String) (params : Json)
    (adm : String → Bool) (net : RpcEnvelope → HttpResult) : Outcome :=
  if betPolicyViolated stake odds then Outcome.policyRejected
  else apiRequest "placeOrders" params (some marketId) adm net

/-- The admission key chosen by `BetfairClient.list_market_book`
(line 522): the first requested market ID, or `"default"`. -/
def marketBookRateKey (marketIds : List String) : String :=
  match marketIds with
  | [] => "default"
  | m :: _ => m

/-- Model of `BetfairClient.list_market_book` (lines 504-529). -/
def listMarketBook (marketIds : List String) (params : Json)
    (adm : String → Bool) (net : RpcEnvelope → HttpResult) : Outcome :=
  apiRequest "listMarketBook" params (some (marketBookRateKey marketIds)) adm net

/-- The scenario-3 upstream error object:
`{error:{message:"X", data:{exceptionname:"INVALID_SESSION_INFORMATION"}}}`. -/
def invalidSessionError : Json :=
  Json.obj [("message", Json.str "X"),
    ("data", Json.obj [("exceptionname", Json.str "INVALID_SESSION_INFORMATION")])]

def invalidSessionFields : List (String × Json) := [("error", invalidSessionError)]

/-- Counterexample to C2.  The account surface (`_account_request`)
classifies the invalid-session upstream response as the generic 400
upstream error, not as the session-expired outcome: it has no
`exceptionname` check at all. -/
theorem account_invalid_session_counterexample :
    classifyAccountBody (Except.ok invalidSessionFields) =
      Outcome.upstreamError invalidSessionError ∧
    (classifyAccountBody (Except.ok invalidSessionFields)).isSessionExpired = false :=
  ⟨rfl, rfl⟩

/-- C2 (amended).  On the trading surface (`_api_request`) a structured
error whose `data.exceptionname` equals `INVALID_SESSION_INFORMATION`
yields the session-expired outcome (HTTP 401), which is distinct from the
generic upstream-error outcome; the account surface (`_account_request`)
instead returns the generic 400 upstream error for the very same body. -/
theorem invalid_session_classification
    (fields efields dfields : List (String × Json))
    (hErr : getKey fields "error" = some (Json.obj efields))
    (hData : (getKey efields "data").getD (Json.obj []) = Json.obj dfields)
    (hExc : isStrEq "INVALID_SESSION_INFORMATION" (getKey dfields "exceptionname") = true) :
    classifyApiBody (Except.ok fields) = Outcome.sessionExpired ∧
    classifyAccountBody (Except.ok fields) = Outcome.upstreamError (Json.obj efields) ∧
    Outcome.upstreamError (Json.obj efields) ≠ Outcome.sessionExpired := by
  refine ⟨?_, ?_, by simp⟩
  · show (match getKey fields "error" with
      | some err => classifyApiError err
      | none => Outcome.success ((getKey fields "result").getD (Json.obj []))) =
      Outcome.sessionExpired
    rw [hErr]
    show classifyApiError (Json.obj efields) = Outcome.sessionExpired
    show (match (getKey efields "data").getD (Json.obj []) with
      | Json.obj dfields' =>
        if isStrEq "INVALID_SESSION_INFORMATION" (getKey dfields' "exceptionname")
        then Outcome.sessionExpired
        else Outcome.upstreamError (Json.obj efields)
      | _ => Outcome.internalError "AttributeError: error data has no attribute get") =
      Outcome.sessionExpired
    rw [hData]
    simp [hExc]
  · show (match getKey fields "error" with
      | some err =>
        match err with
        | Json.obj efields' => Outcome.upstreamError (Json.obj efields')
        | _ => Outcome.internalError "AttributeError: error has no attribute get"
      | none => Outcome.success ((getKey fields "result").getD (Json.obj []))) =
      Outcome.upstreamError (Json.obj efields)
    rw [hErr]

/-- Witness for C2 (amended) at the concrete scenario-3 body. -/
theorem invalid_session_classification_witness :
    classifyApiBody (Except.ok invalidSessionFields) = Outcome.sessionExpired :=
  (invalid_session_classification invalidSessionFields
    [("message", Json.str "X"),
      ("data", Json.obj [("exceptionname", Json.str "INVALID_SESSION_INFORMATION")])]
    [("exceptionname", Json.str "INVALID_SESSION_INFORMATION")]
    rfl rfl rfl).1

/-- An upstream reply with content type `text/html`, status 200, whose
body is not JSON (Python's `json` module raises on it). -/
def htmlResult : HttpResult :=
  HttpResult.response ⟨"text/html", Except.error "Expecting value: line 1 column 1 (char 0)"⟩

/-- Counterexample to C3.  On a dispatched call (`_api_request`) a
`text/html` response does NOT yield a transport error: the content type
is never inspected, `response.json()` is attempted, and the resulting
parse exception escapes uncaught (HTTP 500). -/
theorem api_html_counterexample :
    apiClassify htmlResult =
      Outcome.internalError "Expecting value: line 1 column 1 (char 0)" ∧
    (apiClassify htmlResult).isTransportError = false :=
  ⟨rfl, rfl⟩

/-- C3 (amended).  Only `login` inspects the declared content type: a
non-JSON content type makes `login` return the 502 bad-gateway outcome
before and independently of any parse of the body; the dispatched calls
(`_api_request` and `_account_request` alike), in contrast, ignore the
content type and attempt the structured parse, so an unparseable body
surfaces as an uncaught parse exception (HTTP 500), not as a transport
error, on either surface. -/
theorem content_type_gate (ct : String)
    (body body' : Except String (List (String × Json)))
    (h : declaresJson ct = false) :
    loginClassify (HttpResult.response ⟨ct, body⟩) =
      LoginOutcome.badGateway
        "Betfair returned non-JSON response. May be geo-blocked or service unavailable." ∧
    loginClassify (HttpResult.response ⟨ct, body⟩) =
      loginClassify (HttpResult.response ⟨ct, body'⟩) ∧
    (∀ e, apiClassify (HttpResult.response ⟨ct, Except.error e⟩) =
      Outcome.internalError e) ∧
    (∀ e, (apiClassify (HttpResult.response ⟨ct, Except.error e⟩)).isTransportError =
      false) ∧
    (∀ e, accountClassify (HttpResult.response ⟨ct, Except.error e⟩) =
      Outcome.internalError e) ∧
    (∀ e, (accountClassify (HttpResult.response ⟨ct, Except.error e⟩)).isTransportError =
      false) := by
  have hgate : ∀ b : Except String (List (String × Json)),
      loginClassify (HttpResult.response ⟨ct, b⟩) =
        LoginOutcome.badGateway
          "Betfair returned non-JSON response. May be geo-blocked or service unavailable." := by
    intro b
    show (if declaresJson ct then _ else _) = _
    rw [h]
    rfl
  exact ⟨hgate body, (hgate body).trans (hgate body').symm,
    fun e => rfl, fun e => rfl, fun e => rfl, fun e => rfl⟩

/-- Witness for C3 (amended) at the concrete scenario-4 content type. -/
theorem content_type_gate_witness :
    loginClassify (HttpResult.response
        ⟨"text/html", Except.error "Expecting value: line 1 column 1 (char 0)"⟩) =
      LoginOutcome.badGateway
        "Betfair returned non-JSON response. May be geo-blocked or service unavailable." :=
  (content_type_gate "text/html"
    (Except.error "Expecting value: line 1 column 1 (char 0)") (Except.ok []) rfl).1

/-- C4.  The order admission policy: an order is rejected — with the
dedicated policy outcome, independently of (and before) the transport —
exactly when `stake < 1` and `stake * odds < 10`; any other order is
handed to the dispatcher with the market as rate-limit key.  Concretely,
stake 0.5 at odds 5 is rejected and stake 0.5 at odds 25 is admitted. -/
theorem order_admission_policy (stake odds : ℚ) (marketId : String) (params : Json)
    (adm : String → Bool) (net net' : RpcEnvelope → HttpResult) :
    (betPolicyViolated stake odds = true ↔ stake < 1 ∧ stake * odds < 10) ∧
    (stake < 1 → stake * odds < 10 →
      placeOrders stake odds marketId params adm net = Outcome.policyRejected ∧
      placeOrders stake odds marketId params adm net =
        placeOrders stake odds marketId params adm net') ∧
    (1 ≤ stake ∨ 10 ≤ stake * odds →
      placeOrders stake odds marketId params adm net =
        apiRequest "placeOrders" params (some marketId) adm net) ∧
    placeOrders (1/2) 5 marketId params adm net = Outcome.policyRejected ∧
    placeOrders (1/2) 25 marketId params adm net =
      apiRequest "placeOrders" params (some marketId) adm net := by
  refine ⟨?_, ?_, ?_, ?_, ?_⟩
  · simp [betPolicyViolated]
  · intro h1 h2
    have hv : betPolicyViolated stake odds = true := by
      simp [betPolicyViolated, h1, h2]
    constructor <;> simp [placeOrders, hv]
  · intro h
    have hv : betPolicyViolated stake odds = false := by
      rcases h with h | h
      · simp [betPolicyViolated, not_lt.mpr h]
      · simp [betPolicyViolated, not_lt.mpr h]
    simp [placeOrders, hv]
  · have hv : betPolicyViolated (1/2 : ℚ) 5 = true := by
      norm_num [betPolicyViolated]
    show (if betPolicyViolated (1/2 : ℚ) 5 then Outcome.policyRejected
      else apiRequest "placeOrders" params (some marketId) adm net) =
      Outcome.policyRejected
    rw [hv]
    rfl
  · have hv : betPolicyViolated (1/2 : ℚ) 25 = false := by
      norm_num [betPolicyViolated]
    show (if betPolicyViolated (1/2 : ℚ) 25 then Outcome.policyRejected
      else apiRequest "placeOrders" params (some marketId) adm net) =
      apiRequest "placeOrders" params (some marketId) adm net
    rw [hv]
    rfl

/-- Witness for C4 at the two concrete scenario-2 orders. -/
theorem order_admission_policy_witness :
    placeOrders (1/2) 5 "1.23" Json.null (fun _ => true)
      (fun _ => HttpResult.requestError "down") = Outcome.policyRejected ∧
    placeOrders (1/2) 25 "1.23" Json.null (fun _ => true)
      (fun _ => HttpResult.requestError "down") =
      apiRequest "placeOrders" Json.null (some "1.23") (fun _ => true)
        (fun _ => HttpResult.requestError "down") := by
  constructor
  · exact (order_admission_policy (1/2) 5 "1.23" Json.null (fun _ => true)
      (fun _ => HttpResult.requestError "down")
      (fun _ => HttpResult.requestError "down")).2.2.2.1
  · exact (order_admission_policy (1/2) 25 "1.23" Json.null (fun _ => true)
      (fun _ => HttpResult.requestError "down")
      (fun _ => HttpResult.requestError "down")).2.2.2.2

/-- C7.  When the admission wait for the supplied rate-limit key fails,
the dispatcher returns the rate-limited outcome (HTTP 429); the result
does not depend on the transport oracle, so no envelope is built and the
upstream is never contacted.  The admission wait runs only for a truthy
(nonempty) key — for an empty key `if rate_limit_key:` skips it, so the
wait cannot fail there — whence the `key ≠ ""` hypothesis. -/
theorem rate_limited_no_network (method : String) (params : Json) (key : String)
    (adm : String → Bool) (net net' : RpcEnvelope → HttpResult)
    (hk : key ≠ "") (h : adm key = false) :
    apiRequest method params (some key) adm net = Outcome.rateLimited ∧
    apiRequest method params (some key) adm net =
      apiRequest method params (some key) adm net' := by
  have h1 : ∀ nf : RpcEnvelope → HttpResult,
      apiRequest method params (some key) adm nf = Outcome.rateLimited := by
    intro nf
    show (if key = "" then _ else if adm key then _ else Outcome.rateLimited) =
      Outcome.rateLimited
    rw [if_neg hk, h]
    rfl
  exact ⟨h1 net, (h1 net).trans (h1 net').symm⟩

/-- Witness for C7 with a concretely denied admission. -/
theorem rate_limited_no_network_witness :
    apiRequest "listMarketBook" Json.null (some "1.23") (fun _ => false)
      (fun _ => HttpResult.requestError "down") = Outcome.rateLimited :=
  (rate_limited_no_network "listMarketBook" Json.null "1.23" (fun _ => false)
    (fun _ => HttpResult.requestError "down")
    (fun _ => HttpResult.requestError "down") (by decide) rfl).1

/-- Counterexample to C10.  A market-book request whose first market ID
is the empty string charges NO admission slot at all: the computed rate
key `""` is Python-falsy, so `if rate_limit_key:` skips rate limiting
entirely — the upstream is contacted even under a permanently denying
admission oracle, the outcome is never rate-limited, and the result does
not depend on the admission oracle. -/
theorem market_book_empty_first_id_counterexample :
    listMarketBook [""] Json.null (fun _ => false)
      (fun _ => HttpResult.requestError "down") = Outcome.transportError "down" ∧
    (listMarketBook [""] Json.null (fun _ => false)
      (fun _ => HttpResult.requestError "down")).isRateLimited = false ∧
    listMarketBook [""] Json.null (fun _ => false)
      (fun _ => HttpResult.requestError "down") =
      listMarketBook [""] Json.null (fun _ => true)
        (fun _ => HttpResult.requestError "down") :=
  ⟨rfl, rfl, rfl⟩

/-- C10 (amended).  A market-book request computes its rate-limit key as
the first market ID (`"default"` when the list is empty).  When that key
is nonempty the request is admitted under it alone: the admission oracle
is consulted with exactly that key (a denial yields the rate-limited
outcome), a granted admission appends exactly one timestamp to that
key's window, and the window of every other key — in particular every
other requested market ID — is left unchanged.  When the first market ID
is the empty string, the falsy key makes the dispatcher skip rate
limiting entirely and no admission slot is consumed anywhere. -/
theorem market_book_admission_key (maxR : ℕ) (w : Time) (ids : List String)
    (params : Json) (adm : String → Bool) (net : RpcEnvelope → HttpResult)
    (now : Time) (m : ReqMap) :
    listMarketBook ids params adm net =
      apiRequest "listMarketBook" params (some (marketBookRateKey ids)) adm net ∧
    marketBookRateKey [] = "default" ∧
    (∀ (x : String) (r : List String), marketBookRateKey (x :: r) = x) ∧
    (marketBookRateKey ids ≠ "" →
      listMarketBook ids params adm net =
        (if adm (marketBookRateKey ids)
         then apiClassify (net (mkEnvelope "SportsAPING/v1.0/" "listMarketBook" params))
         else Outcome.rateLimited)) ∧
    (marketBookRateKey ids = "" →
      listMarketBook ids params adm net =
        apiClassify (net (mkEnvelope "SportsAPING/v1.0/" "listMarketBook" params))) ∧
    (∀ k, k ≠ marketBookRateKey ids →
      (acquireKey maxR w (marketBookRateKey ids) now m).2 k = m k) ∧
    ((acquireKey maxR w (marketBookRateKey ids) now m).1 = true →
      (acquireKey maxR w (marketBookRateKey ids) now m).2 (marketBookRateKey ids) =
        pruneWindow w now (m (marketBookRateKey ids)) ++ [now]) := by
  refine ⟨rfl, rfl, fun x r => rfl, ?_, ?_, ?_, ?_⟩
  · intro hne
    show (if marketBookRateKey ids = "" then _ else if adm (marketBookRateKey ids)
      then _ else Outcome.rateLimited) = _
    rw [if_neg hne]
  · intro he
    show (if marketBookRateKey ids = "" then
      apiClassify (net (mkEnvelope "SportsAPING/v1.0/" "listMarketBook" params))
      else _) = _
    rw [if_pos he]
  · intro k hk
    show (if k = marketBookRateKey ids then _ else m k) = m k
    rw [if_neg hk]
  · intro hg
    have hg' : (acquire maxR w now (m (marketBookRateKey ids))).1 = true := hg
    have hlen := (acquire_fst maxR w now (m (marketBookRateKey ids))).mp hg'
    show (if marketBookRateKey ids = marketBookRateKey ids
      then (acquire maxR w now (m (marketBookRateKey ids))).2
      else m (marketBookRateKey ids)) =
      pruneWindow w now (m (marketBookRateKey ids)) ++ [now]
    rw [if_pos rfl, acquire_snd, if_pos hlen]

/-- Witness for C10 (amended) on a concrete two-market request: the
denied dispatch is rate-limited under the first ID, the second market's
window is untouched, and a granted admission appends one timestamp. -/
theorem market_book_admission_key_witness :
    listMarketBook ["1.23", "1.24"] Json.null (fun _ => false)
      (fun _ => HttpResult.requestError "down") = Outcome.rateLimited ∧
    (acquireKey 5 1 (marketBookRateKey ["1.23", "1.24"]) 0 (fun _ => [])).2 "1.24" = [] ∧
    (acquireKey 5 1 (marketBookRateKey ["1.23", "1.24"]) 0 (fun _ => [])).2
      (marketBookRateKey ["1.23", "1.24"]) = [0] := by
  refine ⟨?_, ?_, ?_⟩
  · have h := (market_book_admission_key 5 1 ["1.23", "1.24"] Json.null (fun _ => false)
      (fun _ => HttpResult.requestError "down") 0 (fun _ => [])).2.2.2.1 (by decide)
    simpa using h
  · exact (market_book_admission_key 5 1 ["1.23", "1.24"] Json.null (fun _ => true)
      (fun _ => HttpResult.requestError "x") 0 (fun _ => [])).2.2.2.2.2.1 "1.24" (by decide)
  · have h := (market_book_admission_key 5 1 ["1.23", "1.24"] Json.null (fun _ => true)
      (fun _ => HttpResult.requestError "x") 0 (fun _ => [])).2.2.2.2.2.2 (by decide)
    simpa [pruneWindow] using h

end LayV2
